import Mathlib

/-!
Verification of the skutil H2O feature-selection layer
(`src/skutil/h2o/select.py` and `src/skutil/h2o/pipeline.py`) against its
natural-language specification.

The embedding is shallow: H2O frames become in-memory labeled column lists
(an `H2OFrame` is external to the core and only its interface matters),
Python exceptions become an `Except Err` result, and the global-warning /
frame-access side effects that the spec talks about are made observable as
an explicit event trace returned alongside the result.  Frames are values,
so the source's no-mutation obligations hold intrinsically.

Helpers that the selectors import from parts of the repository that are not
under `src/` (`skutil/h2o/base.py`, `skutil/feature_selection`,
`skutil/utils`) are modelled from the specification; each such definition
carries a doc comment starting with `Modelled from the spec:`.
-/

namespace Skutil

/-- A model of the Python values that can appear inside a `feature_names`
collection: strings and numbers. -/
inductive PyVal
| str (s : String)
| num (q : ℚ)
deriving DecidableEq, Repr

/-- A model of the Python values passed as a `feature_names` argument:
`None`, an iterable collection of values, or a non-iterable scalar.
Following `skutil.utils.fixes.is_iterable` (and Python 2 strings, which do
not expose `__iter__`), a lone string counts as a scalar here. -/
inductive PyFeats
| noneV
| listV (l : List PyVal)
| scalarV (v : PyVal)
deriving DecidableEq, Repr

/-- Python truthiness of a `feature_names` argument: `None`, empty
collections, `0` and the empty string are falsy. -/
def pyTruthy : PyFeats → Bool
| .noneV => false
| .listV l => !l.isEmpty
| .scalarV (.num q) => q != 0
| .scalarV (.str s) => !s.isEmpty

/-- Whether the value exposes `__iter__` (collections do, scalars and
Python 2 strings do not). -/
def hasIter : PyFeats → Bool
| .listV _ => true
| _ => false

/-- A column of an H2O frame: a list of cells, `none` marking an NA. -/
abbrev Col := List (Option ℚ)

/-- The external H2O frame, modelled as named columns in order. -/
structure Frame where
  cols : List (String × Col)
deriving DecidableEq, Repr

/-- Column names of a frame, in frame order. -/
def Frame.names (f : Frame) : List String := f.cols.map Prod.fst

/-- Column subsetting by name list (`frame[name_list]`): keeps the requested
names in request order, each paired with its column data. -/
def Frame.select (f : Frame) (ns : List String) : Frame :=
  ⟨ns.filterMap (fun n => (f.cols.find? (fun c => c.1 == n)).map (fun c => (n, c.2)))⟩

/-- Row count of a frame (`frame.shape[0]`). -/
def Frame.nrows (f : Frame) : Nat :=
  match f.cols with
  | [] => 0
  | c :: _ => c.2.length

/-- Number of NA cells in one column. -/
def colNaCount (c : Col) : Nat := c.countP (fun x => x.isNone)

/-- Total number of NA cells in a frame (`frame.isna().sum()`). -/
def Frame.isnaSum (f : Frame) : Nat := (f.cols.map (fun c => colNaCount c.2)).sum

/-- The Python exceptions that the core raises, with their messages. -/
inductive Err
| valueError (msg : String)
| typeError (msg : String)
| notFitted
| keyError
deriving DecidableEq, Repr

/-- Observable frame accesses performed while fitting a selector:
candidate-frame resolution, NA counting, and statistic computation.  The
trace a fit returns lists these in execution order, so "raised before any
frame access" is checkable on the trace. -/
inductive FEvent
| resolveFrame
| naCheck
| statCompute
deriving DecidableEq, Repr

/-- Modelled from the spec: `_frame_from_x_y` lives in `skutil/h2o/base.py`,
which is not under `src/`.  Per section 4.1 the candidate column set is
`(feature_names or all non-target columns) - exclude_features -
{target_feature}` and exactly those columns are then selected from the
frame. -/
def frameFromXY (X : Frame) (featureNames : Option (List String))
    (target : Option String) (excl : List String) : Frame :=
  let base :=
    match featureNames with
    | none => X.names.filter (fun n => target != some n)
    | some fs => fs
  X.select (base.filter (fun n => !excl.contains n && target != some n))

/-- Modelled from the spec: `_retain_features` lives in `skutil/h2o/base.py`,
which is not under `src/`.  Per section 4.1 `transform` returns the frame
restricted to `columns(frame) \ drop_`. -/
def retainFeatures (X : Frame) (drop : List String) : List String :=
  X.names.filter (fun n => !drop.contains n)

/-- The column restriction a fitted selector applies
(`X[_retain_features(X, drop_)]`). -/
def selTransform (drop : List String) (X : Frame) : Frame :=
  X.select (retainFeatures X drop)

/-- `BaseH2OFeatureSelector.transform`: requires the fitted `drop_`
attribute (`check_is_fitted(self, 'drop_')`, a not-fitted error otherwise)
and returns the input restricted to the retained columns.  `check_frame`
(repo code not under `src/`) only validates that the argument is an
H2OFrame, which every `Frame` is in this embedding.  The input frame is a
value, so it is never mutated. -/
def selectorTransform (dropState : Option (List String)) (X : Frame) :
    Except Err Frame :=
  match dropState with
  | none => .error .notFitted
  | some d => .ok (selTransform d X)

/-- `H2OFeatureDropper.fit`: default `None` to the empty list, require an
iterable, and take the configured elements verbatim as `drop_`.  The frame
is never consulted (the function does not even receive it). -/
def fdFit (featureNames : PyFeats) : Except Err (List PyVal) :=
  let fn := match featureNames with
    | .noneV => PyFeats.listV []
    | x => x
  match fn with
  | .listV l => .ok l
  | _ => .error (.valueError "expected iterable for feature_names")

/-- The three accepted `use` policies. -/
def validUses : List String := ["complete.obs", "all.obs", "everything"]

/-- `_validate_use` with its frame accesses made observable: reject a `use`
outside the valid set; when `use` is not `complete.obs` and `na_warn` is
set, count the NAs in the frame and, if any are present, warn and force
`complete.obs`.  The returned flag records whether the warning fired. -/
def validateUseT (X : Frame) (use : String) (naWarn : Bool) :
    List FEvent × Except Err (String × Bool) :=
  if !validUses.contains use then
    ([], .error (.valueError "expected one of complete.obs all.obs everything"))
  else if use == "complete.obs" then
    ([], .ok (use, false))
  else if naWarn then
    if X.isnaSum > 0 then ([FEvent.naCheck], .ok ("complete.obs", true))
    else ([FEvent.naCheck], .ok (use, false))
  else ([], .ok (use, false))

/-- Fitted state of `H2OSparseFeatureDropper`. -/
structure SparseFitted where
  drop : List String
  sparsity : List ℚ
deriving DecidableEq, Repr

/-- Configuration of `H2OSparseFeatureDropper`. -/
structure SparseCfg where
  featureNames : Option (List String)
  targetFeature : Option String
  excludeFeatures : List String
  threshold : ℚ
deriving DecidableEq, Repr

/-- Missing-value fraction of a column: NA count over row count. -/
def colSparsity (n : Nat) (c : Col) : ℚ := (colNaCount c : ℚ) / (n : ℚ)

/-- `H2OSparseFeatureDropper.fit`, with its frame accesses traced.  The
source resolves the candidate frame first, then validates the threshold,
then computes the per-column NA fractions: `drop_` collects the names whose
fraction strictly exceeds the threshold and `sparsity_` holds every
candidate fraction in frame column order. -/
def sparseFit (cfg : SparseCfg) (X : Frame) :
    List FEvent × Except Err SparseFitted :=
  let frame := frameFromXY X cfg.featureNames cfg.targetFeature cfg.excludeFeatures
  if 0 ≤ cfg.threshold ∧ cfg.threshold < 1 then
    let n := frame.nrows
    let withFrac := frame.cols.map (fun c => (c.1, colSparsity n c.2))
    ([FEvent.resolveFrame, FEvent.statCompute],
     .ok { drop := (withFrac.filter (fun p => cfg.threshold < p.2)).map Prod.fst,
           sparsity := withFrac.map Prod.snd })
  else
    ([FEvent.resolveFrame],
     .error (.valueError "thresh must be a float between 0 inclusive and 1"))

/-- One entry of the multicollinearity audit trail: the two correlated
features, their correlation level, the feature chosen for dropping and the
mean absolute correlation of the dropped feature. -/
structure CorrRecord where
  featA : String
  featB : String
  corr : ℚ
  dropped : String
  mac : ℚ
deriving DecidableEq, Repr

/-- Fitted state of `H2OMulticollinearityFilterer`. -/
structure McfFitted where
  drop : List String
  meanAbsCorrelations : List ℚ
  correlations : List CorrRecord
deriving DecidableEq, Repr

/-- Configuration of `H2OMulticollinearityFilterer`. -/
structure McfCfg where
  featureNames : Option (List String)
  targetFeature : Option String
  excludeFeatures : List String
  threshold : ℚ
  naWarn : Bool
  naRm : Bool
  use : String
deriving DecidableEq, Repr

/-- Entry `(i, j)` of a matrix stored as rows, out-of-range reads as 0. -/
def matGet (m : List (List ℚ)) (i j : Nat) : ℚ :=
  match m.get? i with
  | some row => (row.get? j).getD 0
  | none => 0

/-- Mean absolute correlation of column `i` against the other live columns:
the mean of row `i` of the absolute correlation matrix over the currently
remaining columns other than `i` itself. -/
def macOf (m : List (List ℚ)) (live : List Nat) (i : Nat) : ℚ :=
  let others := live.filter (fun j => j ≠ i)
  (others.map (fun j => matGet m i j)).sum / (others.length : ℚ)

/-- All unordered pairs of a list, first component earlier in the list. -/
def allPairs : List Nat → List (Nat × Nat)
| [] => []
| i :: rest => rest.map (fun j => (i, j)) ++ allPairs rest

/-- The off-diagonal pair of live columns with the highest matrix entry
(first such pair in scan order on ties). -/
def bestPair (m : List (List ℚ)) (live : List Nat) : Option (Nat × Nat) :=
  (allPairs live).foldl
    (fun best p =>
      match best with
      | none => some p
      | some q => if matGet m p.1 p.2 > matGet m q.1 q.2 then some p else best)
    none

/-- Greedy elimination loop over the absolute correlation matrix, on an
explicit live index set; `fuel` bounds the iteration count by the column
count since each round removes one column. -/
def fcLoop (m : List (List ℚ)) (names : List String) (thresh : ℚ) :
    Nat → List Nat → List String × List ℚ × List CorrRecord →
    List String × List ℚ × List CorrRecord
| 0, _, acc => acc
| Nat.succ fuel, live, acc =>
  match bestPair m live with
  | none => acc
  | some p =>
    let v := matGet m p.1 p.2
    if v > thresh then
      let mi := macOf m live p.1
      let mj := macOf m live p.2
      let d := if mi > mj then p.1 else p.2
      let mD := if mi > mj then mi else mj
      let rec0 : CorrRecord :=
        ⟨names.getD p.1 "", names.getD p.2 "", v, names.getD d "", mD⟩
      fcLoop m names thresh fuel (live.filter (fun k => k ≠ d))
        (acc.1 ++ [names.getD d ""], acc.2.1 ++ [mD], acc.2.2 ++ [rec0])
    else acc

/-- Modelled from the spec: `filter_collinearity` lives in
`skutil/feature_selection`, which is not under `src/`.  Per section 4.4 it
repeatedly takes the highest off-diagonal absolute correlation still above
the threshold, compares the mean absolute correlations of the two columns
of that pair over the remaining columns, drops the higher-MAC member (ties
keep the first-encountered column in original order), records the audit
entry, removes the dropped column from consideration and repeats until no
pair exceeds the threshold. -/
def filterCollinearity (names : List String) (m : List (List ℚ)) (thresh : ℚ) :
    List String × List ℚ × List CorrRecord :=
  fcLoop m names thresh names.length (List.range names.length) ([], [], [])

/-- `H2OMulticollinearityFilterer.fit_transform`, with frame accesses
traced and the external engine's correlation matrix supplied as `corFn`
(`frame.cor(use=use, na_rm=self.na_rm)`; the `.abs()` is applied here as in
the source).  Resolves the candidate frame, validates the `use` policy,
builds the absolute correlation matrix, runs the greedy elimination, stores
the fitted state and returns `transform` of the original input. -/
def mcfFitTransform (corFn : Bool → String → Frame → List (List ℚ))
    (cfg : McfCfg) (X : Frame) :
    List FEvent × Except Err (McfFitted × Frame) :=
  let frame := frameFromXY X cfg.featureNames cfg.targetFeature cfg.excludeFeatures
  match validateUseT frame cfg.use cfg.naWarn with
  | (ev1, .error e) => (FEvent.resolveFrame :: ev1, .error e)
  | (ev1, .ok (use2, _)) =>
    let c := (corFn cfg.naRm use2 frame).map (fun row => row.map (fun q => |q|))
    let r := filterCollinearity frame.names c cfg.threshold
    (FEvent.resolveFrame :: ev1 ++ [FEvent.statCompute],
     .ok (⟨r.1, r.2.1, r.2.2⟩, selTransform r.1 X))

/-- `H2OMulticollinearityFilterer.fit`: the source delegates to
`fit_transform` and returns `self`, so the fitted state is the first
component of the `fit_transform` result. -/
def mcfFit (corFn : Bool → String → Frame → List (List ℚ))
    (cfg : McfCfg) (X : Frame) : List FEvent × Except Err McfFitted :=
  ((mcfFitTransform corFn cfg X).1,
   (mcfFitTransform corFn cfg X).2.map Prod.fst)

/-- Fitted state of `H2ONearZeroVarianceFilterer`: the dropped columns and
the map (association list, in drop order) from each dropped column to its
variance or frequency ratio. -/
structure NzvFitted where
  drop : List String
  var : List (String × ℚ)
deriving DecidableEq, Repr

/-- Configuration of `H2ONearZeroVarianceFilterer`. -/
structure NzvCfg where
  featureNames : Option (List String)
  targetFeature : Option String
  excludeFeatures : List String
  threshold : ℚ
  naWarn : Bool
  naRm : Bool
  use : String
  strategy : String
deriving DecidableEq, Repr

/-- The two largest elements of a list of counts, in order. -/
def topTwoCounts (l : List Nat) : Nat × Nat :=
  l.foldl
    (fun p c =>
      if c ≥ p.1 then (c, p.1) else if c > p.2 then (p.1, c) else p)
    (0, 0)

/-- Modelled from the spec: `_near_zero_variance_ratio` lives in
`skutil/feature_selection/select.py`, which is not under `src/`.  Per
section 4.5 it computes, over the column's (non-NA) values, the ratio of
the frequency of the most common value to the frequency of the second-most
common value, and flags the column for dropping when that ratio exceeds the
threshold; with no second distinct value the ratio is treated as maximal
(here the top frequency itself) and the column is dropped.  Returns the
ratio and the drop flag. -/
def nearZeroVarianceRatio (c : Col) (thresh : ℚ) : ℚ × Bool :=
  let vals := c.filterMap id
  let counts := (vals.eraseDups).map (fun v => vals.count v)
  let tt := topTwoCounts counts
  if tt.2 = 0 then ((tt.1 : ℚ), true)
  else
    let r : ℚ := (tt.1 : ℚ) / (tt.2 : ℚ)
    (r, r > thresh)

/-- `H2ONearZeroVarianceFilterer.fit_transform`, with frame accesses traced
and the engine's per-column variances (the diagonal of
`frame.var(na_rm, use)`) supplied as `varFn`.  Resolves the candidate
frame, validates the `use` policy, then the strategy; under `variance` it
drops the candidate columns whose variance is strictly below the threshold,
under `ratio` it first requires the threshold to exceed 1 and drops the
columns whose frequency ratio is flagged; finally returns `transform` of
the original input. -/
def nzvFitTransform (varFn : Bool → String → Frame → List ℚ)
    (cfg : NzvCfg) (X : Frame) :
    List FEvent × Except Err (NzvFitted × Frame) :=
  let frame := frameFromXY X cfg.featureNames cfg.targetFeature cfg.excludeFeatures
  match validateUseT frame cfg.use cfg.naWarn with
  | (ev1, .error e) => (FEvent.resolveFrame :: ev1, .error e)
  | (ev1, .ok (use2, _)) =>
    if cfg.strategy ≠ "variance" ∧ cfg.strategy ≠ "ratio" then
      (FEvent.resolveFrame :: ev1,
       .error (.valueError "strategy must be one of variance ratio"))
    else if cfg.strategy = "variance" then
      let diag := varFn cfg.naRm use2 frame
      let dropped := (frame.names.zip diag).filter (fun p => p.2 < cfg.threshold)
      (FEvent.resolveFrame :: ev1 ++ [FEvent.statCompute],
       .ok (⟨dropped.map Prod.fst, dropped⟩,
            selTransform (dropped.map Prod.fst) X))
    else
      if ¬ 1 < cfg.threshold then
        (FEvent.resolveFrame :: ev1,
         .error (.valueError "when strategy is ratio threshold must be greater than 1.0"))
      else
        let pairs := frame.cols.map (fun c => (c.1, nearZeroVarianceRatio c.2 cfg.threshold))
        let dropped := pairs.filter (fun p => p.2.2)
        (FEvent.resolveFrame :: ev1 ++ [FEvent.statCompute],
         .ok (⟨dropped.map Prod.fst, dropped.map (fun p => (p.1, p.2.1))⟩,
              selTransform (dropped.map Prod.fst) X))

/-- `H2ONearZeroVarianceFilterer.fit`: the source delegates to
`fit_transform` and returns `self`. -/
def nzvFit (varFn : Bool → String → Frame → List ℚ)
    (cfg : NzvCfg) (X : Frame) : List FEvent × Except Err NzvFitted :=
  ((nzvFitTransform varFn cfg X).1,
   (nzvFitTransform varFn cfg X).2.map Prod.fst)

/-- The behavior of an intermediate pipeline step (a `BaseH2OTransformer`):
given the injected `target_feature` and the step's fit-parameter bucket,
fit on a frame and return the transformed frame. -/
structure StepSel where
  fitTransform : Option String → List (String × String) → Frame → Except Err Frame

/-- A member of a pipeline `steps` list: a transformer, an estimator
(which exposes `train`, and optionally `predict`), or some other object
with neither capability. -/
inductive StepObj
| selector (s : StepSel)
| estimator (hasPredict : Bool)
| plain

/-- A constructed `H2OPipeline`. -/
structure Pipeline where
  steps : List (String × StepObj)
  featureNames : PyFeats
  targetFeature : Option String

/-- `_val_features`: a falsy `feature_names` (including `None` and the
empty collection) is a `ValueError`; a truthy value without `__iter__` is a
`TypeError`; anything else is returned unchanged. -/
def valFeatures (x : PyFeats) : Except Err PyFeats :=
  if !pyTruthy x then .error (.valueError "invalid value for feature_names")
  else if !hasIter x then .error (.typeError "expected iterable for feature_names")
  else .ok x

/-- Whether a step object is a `BaseH2OTransformer` instance. -/
def isSelector : StepObj → Bool
| .selector _ => true
| _ => false

/-- Whether a step object exposes `train`. -/
def hasTrain : StepObj → Bool
| .estimator _ => true
| _ => false

/-- `H2OPipeline.__init__`: validate `feature_names` first, then unpack
the steps (failing on an empty list like `zip(*steps)`), require pairwise
unique step names (`len(dict(steps)) == len(steps)`), require every
non-final step to be a `BaseH2OTransformer` and the final step to expose
`train`. -/
def pipelineInit (steps : List (String × StepObj)) (featureNames : PyFeats)
    (target : Option String) : Except Err Pipeline :=
  match valFeatures featureNames with
  | .error e => .error e
  | .ok fn =>
    if steps.isEmpty then .error (.valueError "not enough values to unpack")
    else if (steps.map Prod.fst).eraseDups.length ≠ steps.length then
      .error (.valueError "Provided step names are not unique")
    else if !steps.dropLast.all (fun s => isSelector s.2) then
      .error (.typeError "All intermediate steps of the chain should be instances of BaseH2OTransformer")
    else
      match steps.getLast? with
      | none => .error (.valueError "not enough values to unpack")
      | some last =>
        if !hasTrain last.2 then
          .error (.typeError "Last step of chain should implement train")
        else .ok ⟨steps, fn, target⟩

/-- Whether an `Except` result is a success. -/
def exceptOk {α : Type} : Except Err α → Bool
| .ok _ => true
| .error _ => false

/-- Split a character list at the first occurrence of a (non-empty)
separator: the part before it and the part after it, or `none` when the
separator never occurs. -/
def firstSplit (sep : List Char) : List Char → Option (List Char × List Char)
| [] => none
| c :: rest =>
  if sep.isPrefixOf (c :: rest) then some ([], (c :: rest).drop sep.length)
  else
    match firstSplit sep rest with
    | some pr => some (c :: pr.1, pr.2)
    | none => none

/-- `pname.split('__', 1)`: `none` when the separator is absent (the
two-name unpacking then raises), otherwise the step name before the first
`__` and the remainder after it. -/
def splitParamName (p : String) : Option (String × String) :=
  match firstSplit "__".toList p.toList with
  | some pr => some (⟨pr.1⟩, ⟨pr.2⟩)
  | none => none

/-- The per-step parameter buckets, initialized empty for every step name
(`dict((step, {}) for step, _ in self.steps)`). -/
def emptyBuckets (names : List String) : List (String × List (String × String)) :=
  names.map (fun n => (n, []))

/-- `fit_params_steps[step][param] = pval`: append to the bucket of the
first matching step name, `none` when the key is absent (a `KeyError`). -/
def bucketInsert (bs : List (String × List (String × String)))
    (step param v : String) :
    Option (List (String × List (String × String))) :=
  match bs with
  | [] => none
  | b :: rest =>
    if b.1 == step then some ((b.1, b.2 ++ [(param, v)]) :: rest)
    else (bucketInsert rest step param v).map (fun r => b :: r)

/-- Distribute the supplied fit parameters over the buckets, one at a
time, failing on a name without the `__` separator or with an unknown step
prefix. -/
def buildBucketsAux (bs : List (String × List (String × String))) :
    List (String × String) →
    Except Err (List (String × List (String × String)))
| [] => .ok bs
| pv :: rest =>
  match splitParamName pv.1 with
  | none => .error (.valueError "not enough values to unpack")
  | some sp =>
    match bucketInsert bs sp.1 sp.2 pv.2 with
    | none => .error .keyError
    | some bs2 => buildBucketsAux bs2 rest

/-- The bucket-splitting phase of `_pre_transform`. -/
def buildBuckets (names : List String) (fitParams : List (String × String)) :
    Except Err (List (String × List (String × String))) :=
  buildBucketsAux (emptyBuckets names) fitParams

/-- The bucket registered for a step name (empty when absent). -/
def bucketOf (bs : List (String × List (String × String))) (n : String) :
    List (String × String) :=
  match bs.find? (fun b => b.1 == n) with
  | some b => b.2
  | none => []

/-- The transformer loop of `_pre_transform`: thread the frame through
every non-final step, injecting the pipeline's `target_feature` and
passing the step its own bucket.  Also returns the log of
(step name, bucket) invocations actually performed, in order. -/
def runSteps (target : Option String)
    (bs : List (String × List (String × String))) :
    List (String × StepObj) → Frame →
    Except Err (Frame × List (String × List (String × String)))
| [], fr => .ok (fr, [])
| st :: rest, fr =>
  match st.2 with
  | .selector s =>
    match s.fitTransform target (bucketOf bs st.1) fr with
    | .error e => .error e
    | .ok fr2 =>
      match runSteps target bs rest fr2 with
      | .error e => .error e
      | .ok (f, log) => .ok (f, (st.1, bucketOf bs st.1) :: log)
  | _ =>
    .error (.typeError "All intermediate steps of the chain should be instances of BaseH2OTransformer")

/-- The name of the final step. -/
def lastStepName (steps : List (String × StepObj)) : String :=
  match steps.getLast? with
  | some s => s.1
  | none => ""

/-- `H2OPipeline._pre_transform`: split the supplied fit parameters into
per-step buckets, run every non-final step on the threaded frame with its
own bucket, and return the resulting frame together with the final step's
bucket (and the invocation log, which the source performs as calls). -/
def preTransform (steps : List (String × StepObj)) (target : Option String)
    (fitParams : List (String × String)) (frame : Frame) :
    Except Err (Frame × List (String × String) × List (String × List (String × String))) :=
  match buildBuckets (steps.map Prod.fst) fitParams with
  | .error e => .error e
  | .ok bs =>
    match runSteps target bs steps.dropLast frame with
    | .error e => .error e
    | .ok (fr, log) => .ok (fr, bucketOf bs (lastStepName steps), log)

/-- The element check in `H2OPipeline.fit` (`for n in (x): if n and not
all([isinstance(i, str) for i in n])`): each truthy element is itself
iterated, so a truthy number fails with a `TypeError` while strings pass
(their characters are strings) and falsy elements are skipped. -/
def checkFeatureElems : List PyVal → Except Err Unit
| [] => .ok ()
| v :: rest =>
  match v with
  | .num q =>
    if q ≠ 0 then .error (.typeError "feature_names must be a list of strings")
    else checkFeatureElems rest
  | .str _ => checkFeatureElems rest

/-- The column name an element of `feature_names` contributes when the
frame is subset by `[p for p in x] + [y]`. -/
def toName : PyVal → Option String
| .str s => some s
| .num _ => none

/-- The boundary restriction `frame[xy]` that `fit` applies before the
first step: exactly the named features plus the target. -/
def fitRestrict (p : Pipeline) (frame : Frame) : Frame :=
  match p.featureNames, p.targetFeature with
  | .listV l, some y => frame.select (l.filterMap toName ++ [y])
  | _, _ => frame

/-- What `H2OPipeline.fit` hands to the final estimator's `train` call,
plus the recorded `training_cols_`. -/
structure FitOutcome where
  trainingCols : List String
  trainFrame : Frame
  trainX : List String
  trainY : String
  trainParams : List (String × String)
deriving DecidableEq, Repr

/-- `H2OPipeline.fit`: reset pipeline state (implicit here, the outcome is
rebuilt from scratch), require a string `target_feature`, check the
`feature_names` elements, restrict the frame to the named features plus
target, run `_pre_transform` with an empty parameter set (the method
accepts no fit parameters), record `training_cols_` as the surviving
columns minus the target, test the *unfiltered* surviving column list for
emptiness exactly as the source does, and finally train the estimator on
the transformed frame. -/
def pipelineFit (p : Pipeline) (frame : Frame) : Except Err FitOutcome :=
  match p.targetFeature with
  | none => .error (.typeError "target_feature should be a single string")
  | some y =>
    match p.featureNames with
    | .listV l =>
      match checkFeatureElems l with
      | .error e => .error e
      | .ok _ =>
        match preTransform p.steps p.targetFeature [] (fitRestrict p frame) with
        | .error e => .error e
        | .ok (xt, lastBucket, _) =>
          let trainingColsAll := xt.names
          let trainingCols := trainingColsAll.filter (fun n => !(n == y))
          if trainingColsAll.isEmpty then
            .error (.valueError "no columns retained after fit")
          else
            match p.steps.getLast? with
            | some (_, StepObj.estimator _) =>
              .ok ⟨trainingCols, xt, trainingCols, y, lastBucket⟩
            | _ => .error (.typeError "Last step of chain should implement train")
    | _ => .error (.typeError "feature_names must be a list of strings")

/-- An `H2OFeatureDropper` used as a pipeline step: `fit_transform` (via
the sklearn mixin) is `fit` followed by `transform`; `fit` accepts no
keyword arguments, so a non-empty bucket fails.  The fitted drop list is
applied to the incoming frame by name. -/
def featureDropperStep (featureNames : PyFeats) : StepSel :=
  ⟨fun _target params fr =>
    if !params.isEmpty then
      .error (.typeError "fit got an unexpected keyword argument")
    else
      match fdFit featureNames with
      | .error e => .error e
      | .ok dropVals => .ok (selTransform (dropVals.filterMap toName) fr)⟩

/-- The parameters a given step should receive from a fit-parameter list,
per the stepname and separator convention, in supply order. -/
def routedParams (ps : List (String × String)) (n : String) :
    List (String × String) :=
  ps.filterMap (fun pv =>
    match splitParamName pv.1 with
    | some sp => if sp.1 == n then some (sp.2, pv.2) else none
    | none => none)

/-- The candidate frame a sparse dropper fit resolves. -/
def sparseCandidates (cfg : SparseCfg) (X : Frame) : Frame :=
  frameFromXY X cfg.featureNames cfg.targetFeature cfg.excludeFeatures

/-- The candidate frame a near-zero-variance fit resolves. -/
def nzvCandidates (cfg : NzvCfg) (X : Frame) : Frame :=
  frameFromXY X cfg.featureNames cfg.targetFeature cfg.excludeFeatures

/-- A three-column frame with features `a`, `b` and target `y`. -/
def frameABY : Frame := ⟨[("a", [some 1]), ("b", [some 0]), ("y", [some 5])]⟩

/-- A frame with NA cells: `a` has 1 of 2 missing, `b` has 2 of 2. -/
def frameNA : Frame :=
  ⟨[("a", [none, some 1]), ("b", [none, none]), ("y", [some 1, some 2])]⟩

/-- A pipeline whose single transformer drops both feature columns. -/
def stepsAllDrop : List (String × StepObj) :=
  [("drop", .selector (featureDropperStep (.listV [.str "a", .str "b"]))),
   ("est", .estimator true)]

/-- The pipeline built from `stepsAllDrop` over features `a`, `b` and
target `y`. -/
def pipeAllDrop : Pipeline :=
  ⟨stepsAllDrop, .listV [.str "a", .str "b"], some "y"⟩

/-- A sparse-dropper configuration with an out-of-domain threshold. -/
def sparseCfgBad : SparseCfg := ⟨some ["a"], some "y", [], 3 / 2⟩

/-- A sparse-dropper configuration with threshold one half. -/
def sparseCfgHalf : SparseCfg := ⟨some ["a", "b"], some "y", [], 1 / 2⟩

/-- A near-zero-variance configuration with an invalid strategy and a
non-default `use`, over a frame that will contain NAs. -/
def nzvCfgBadStrategy : NzvCfg :=
  ⟨some ["a", "b"], some "y", [], 1 / 2, true, false, "everything", "bogus"⟩

/-- A near-zero-variance configuration using the variance strategy. -/
def nzvCfgVariance : NzvCfg :=
  ⟨some ["a", "b"], some "y", [], 1 / 2, true, false, "complete.obs", "variance"⟩

/-- A ratio-strategy configuration whose threshold is not above 1. -/
def nzvCfgRatioBad : NzvCfg :=
  ⟨some ["a", "b"], some "y", [], 1 / 2, true, false, "complete.obs", "ratio"⟩

/-- A multicollinearity configuration at threshold 0.9. -/
def mcfCfgAB : McfCfg := ⟨some ["a", "b"], some "y", [], 9 / 10, true, false, "complete.obs"⟩

/-- A multicollinearity configuration with an invalid `use` value. -/
def mcfCfgBadUse : McfCfg := ⟨some ["a", "b"], some "y", [], 9 / 10, true, false, "bogus"⟩

/-- A concrete variance oracle for witnesses. -/
def varFnW : Bool → String → Frame → List ℚ := fun _ _ _ => [0, 1]

/-- A concrete correlation oracle for witnesses. -/
def corFnW : Bool → String → Frame → List (List ℚ) := fun _ _ _ => [[1, 1 / 2], [1 / 2, 1]]

/-- A concrete fit-parameter list exercising the routing convention. -/
def paramsW : List (String × String) :=
  [("s1__a", "1"), ("s2__b", "2"), ("s1__c__d", "3")]

/-- The buckets `paramsW` splits into over step names `s1`, `s2`. -/
def bucketsW : List (String × List (String × String)) :=
  [("s1", [("a", "1"), ("c__d", "3")]), ("s2", [("b", "2")])]

/-! ## Helper lemmas -/

/-- A name occurring in a frame is found by the column lookup. -/
theorem frame_find_mem (X : Frame) (n : String) (h : n ∈ X.names) :
    ∃ c, X.cols.find? (fun c => c.1 == n) = some c := by
  rcases List.mem_map.mp h with ⟨c, hc, rfl⟩
  have hs : (X.cols.find? (fun c0 => c0.1 == c.1)).isSome := by
    rw [List.find?_isSome]
    exact ⟨c, hc, by simp⟩
  exact Option.isSome_iff_exists.mp hs

/-- Selecting names that all occur in the frame yields exactly those names. -/
theorem select_names (X : Frame) :
    ∀ ns : List String, (∀ n ∈ ns, n ∈ X.names) → (X.select ns).names = ns := by
  intro ns
  induction ns with
  | nil => intro _; rfl
  | cons n rest ih =>
    intro h
    rcases frame_find_mem X n (h n (by simp)) with ⟨c, hc⟩
    have hrest := ih (fun m hm => h m (by simp [hm]))
    simp only [Frame.select, Frame.names, List.filterMap_cons, hc, Option.map_some'] at *
    simp [hrest]

/-- In a list of pairs with pairwise distinct first components, the first
component determines the second. -/
theorem nodup_fst_eq {α : Type} :
    ∀ l : List (String × α), (l.map Prod.fst).Nodup →
      ∀ (a : String) (b b' : α), (a, b) ∈ l → (a, b') ∈ l → b = b' := by
  intro l
  induction l with
  | nil => intro _ a b b' hb; cases hb
  | cons hd tl ih =>
    intro hn a b b' hb hb'
    rcases List.nodup_cons.mp hn with ⟨hni, hntl⟩
    rcases List.mem_cons.mp hb with hb1 | hb1 <;>
      rcases List.mem_cons.mp hb' with hb2 | hb2
    · have h12 : (a, b) = (a, b') := hb1.trans hb2.symm
      injection h12 with _ h2
    · exfalso
      rw [← hb1] at hni
      exact hni (List.mem_map.mpr ⟨(a, b'), hb2, rfl⟩)
    · exfalso
      rw [← hb2] at hni
      exact hni (List.mem_map.mpr ⟨(a, b), hb1, rfl⟩)
    · exact ih hntl a b b' hb1 hb2

/-- The first components of a zip form a sublist of the left factor. -/
theorem map_fst_zip_sublist {α β : Type} :
    ∀ (l1 : List α) (l2 : List β), ((l1.zip l2).map Prod.fst).Sublist l1 := by
  intro l1
  induction l1 with
  | nil => intro l2; simp
  | cons a rest ih =>
    intro l2
    cases l2 with
    | nil => simp
    | cons b l2t => simpa using List.Sublist.cons₂ a (ih l2t)

/-- `validateUseT` never computes a statistic. -/
theorem validateUseT_no_stat (X : Frame) (use : String) (w : Bool) :
    FEvent.statCompute ∉ (validateUseT X use w).1 := by
  unfold validateUseT
  split
  · simp
  · split
    · simp
    · split
      · split <;> simp
      · simp

/-- A valid `use` string always passes `_validate_use`. -/
theorem validateUseT_ok_of_valid (X : Frame) (use : String) (w : Bool)
    (h : validUses.contains use = true) :
    ∃ ev r, validateUseT X use w = (ev, .ok r) := by
  unfold validateUseT
  rw [h]
  simp only [Bool.not_true, Bool.false_eq_true, if_false]
  split
  · exact ⟨_, _, rfl⟩
  · split
    · split <;> exact ⟨_, _, rfl⟩
    · exact ⟨_, _, rfl⟩

/-- A successful `_val_features` result is a non-empty collection. -/
theorem valFeatures_ok_listV (x r : PyFeats) (h : valFeatures x = .ok r) :
    ∃ l, r = PyFeats.listV l ∧ l ≠ [] := by
  cases x with
  | noneV => simp [valFeatures, pyTruthy] at h
  | scalarV v =>
    unfold valFeatures at h
    split at h
    · simp at h
    · simp [hasIter] at h
  | listV l =>
    cases l with
    | nil => simp [valFeatures, pyTruthy] at h
    | cons a t =>
      refine ⟨a :: t, ?_, by simp⟩
      simp [valFeatures, pyTruthy, hasIter] at h
      exact h.symm

/-- Filtering a keyed statistic list on its value and keeping the keys is
the same as filtering the raw columns on the statistic. -/
theorem filter_map_fst_comm {β : Type} (f : β → ℚ) (t : ℚ) :
    ∀ l : List (String × β),
      (((l.map (fun c => (c.1, f c.2))).filter (fun p => t < p.2)).map Prod.fst)
        = (l.filter (fun c => t < f c.2)).map Prod.fst := by
  intro l
  induction l with
  | nil => rfl
  | cons c rest ih =>
    by_cases h : t < f c.2 <;>
      simp [List.filter_cons, h, ih]

/-! ## Claim theorems -/

/-- Claim C1: the claim says a fit that leaves no surviving non-target
columns must fail before training.  The code instead tests the unfiltered
column list (which still contains the target), so on a pipeline whose
selector drops every feature column `fit` succeeds: it records
`training_cols_ = []` and hands the estimator an empty `x` list instead of
raising.  This theorem evaluates the embedded `fit` at that failing input
(the pipeline also passes construction). -/
theorem c1_zero_training_columns_not_fatal :
    pipelineFit pipeAllDrop frameABY =
      .ok ⟨[], ⟨[("y", [some 5])]⟩, [], "y", []⟩ ∧
    exceptOk (pipelineInit stepsAllDrop (.listV [.str "a", .str "b"]) (some "y")) = true :=
  ⟨rfl, rfl⟩

/-- Claim C4 counterexample: an iterable of non-strings is accepted by
`H2OFeatureDropper.fit` — it does not raise, and stores the non-string
element verbatim — refuting "raises whenever feature_names is not an
iterable of strings". -/
theorem c4_counterexample_non_string_iterable :
    fdFit (PyFeats.listV [PyVal.num 1]) = .ok [PyVal.num 1] ∧
    ∀ s, PyVal.num 1 ≠ PyVal.str s :=
  ⟨rfl, fun s h => by cases h⟩

/-- Claim C4 (amended): `H2OFeatureDropper.fit` raises a ValueError
exactly when `feature_names` is a non-iterable scalar; element types are
never checked, `None` yields an empty drop list, and any iterable's
elements become `drop_` verbatim.  The frame plays no part (the embedded
fit does not even take it as an argument). -/
theorem c4_feature_dropper_fit_semantics :
    (∀ v, fdFit (.scalarV v) =
        .error (.valueError "expected iterable for feature_names")) ∧
    fdFit .noneV = .ok [] ∧
    (∀ l, fdFit (.listV l) = .ok l) :=
  ⟨fun _ => rfl, rfl, fun _ => rfl⟩

/-- Claim C6: `_validate_use` rejects a `use` outside the three allowed
values; with a non-`complete.obs` use, `na_warn` set and at least one NA
present, the policy is overridden to `complete.obs` with the warning
recorded; with `na_warn` unset the caller's valid `use` is honored
unchanged. -/
theorem c6_validate_use_policy (X : Frame) (use : String) (naWarn : Bool) :
    (validUses.contains use = false →
      (validateUseT X use naWarn).2 =
        .error (.valueError "expected one of complete.obs all.obs everything")) ∧
    ((use = "all.obs" ∨ use = "everything") → naWarn = true → 0 < X.isnaSum →
      validateUseT X use naWarn = ([FEvent.naCheck], .ok ("complete.obs", true))) ∧
    (naWarn = false → validUses.contains use = true →
      (validateUseT X use naWarn).2 = .ok (use, false)) := by
  refine ⟨fun h => ?_, fun h hw hna => ?_, fun hw h => ?_⟩
  · have h' : use ∉ validUses := by simpa using h
    simp [validateUseT, h']
  · subst hw
    rcases h with rfl | rfl <;> simp [validateUseT, validUses, hna]
  · subst hw
    have h' : use ∈ validUses := by simpa using h
    by_cases hc : use = "complete.obs"
    · simp [validateUseT, validUses, hc]
    · have h'' : use = "all.obs" ∨ use = "everything" := by
        simpa [validUses, hc] using h'
      rcases h'' with rfl | rfl <;> simp [validateUseT, validUses]

/-- Claim C6 witness: on a frame with three NAs, `use = "everything"` and
`na_warn` set, the result is the `complete.obs` override with a warning. -/
theorem c6_witness :
    validateUseT frameNA "everything" true = ([FEvent.naCheck], .ok ("complete.obs", true)) :=
  (c6_validate_use_policy frameNA "everything" true).2.1 (Or.inr rfl) rfl (by decide)

/-- Claim C8: an unfitted selector (no `drop_`) rejects `transform` with a
not-fitted error; a fitted one returns the input restricted to the columns
not in `drop_` — characterized both as a list equation and per-name — and,
frames being values in this embedding, the input frame is unchanged. -/
theorem c8_transform_fitted_semantics (X : Frame) (d : List String) :
    selectorTransform none X = .error .notFitted ∧
    selectorTransform (some d) X = .ok (selTransform d X) ∧
    (selTransform d X).names = X.names.filter (fun n => !d.contains n) ∧
    (∀ n, n ∈ (selTransform d X).names ↔ n ∈ X.names ∧ n ∉ d) := by
  have hnames : (selTransform d X).names = X.names.filter (fun n => !d.contains n) := by
    unfold selTransform retainFeatures
    exact select_names X _ (fun n hn => (List.mem_filter.mp hn).1)
  refine ⟨rfl, rfl, hnames, fun n => ?_⟩
  rw [hnames, List.mem_filter]
  simp

/-- Claim C9: for both filterers, `fit` is the source's one-line
delegation to `fit_transform`, so the fitted state (and the trace of frame
accesses and warnings) agree exactly; the two differ only in the returned
frame. -/
theorem c9_fit_agrees_with_fit_transform
    (corFn : Bool → String → Frame → List (List ℚ)) (cfg : McfCfg) (X : Frame)
    (varFn : Bool → String → Frame → List ℚ) (ncfg : NzvCfg) (Y : Frame) :
    (mcfFit corFn cfg X).2 = (mcfFitTransform corFn cfg X).2.map Prod.fst ∧
    (mcfFit corFn cfg X).1 = (mcfFitTransform corFn cfg X).1 ∧
    (nzvFit varFn ncfg Y).2 = (nzvFitTransform varFn ncfg Y).2.map Prod.fst ∧
    (nzvFit varFn ncfg Y).1 = (nzvFitTransform varFn ncfg Y).1 ∧
    (∀ st fr, (mcfFitTransform corFn cfg X).2 = .ok (st, fr) →
      (mcfFit corFn cfg X).2 = .ok st) ∧
    (∀ e, (mcfFitTransform corFn cfg X).2 = .error e →
      (mcfFit corFn cfg X).2 = .error e) ∧
    (∀ st fr, (nzvFitTransform varFn ncfg Y).2 = .ok (st, fr) →
      (nzvFit varFn ncfg Y).2 = .ok st) ∧
    (∀ e, (nzvFitTransform varFn ncfg Y).2 = .error e →
      (nzvFit varFn ncfg Y).2 = .error e) := by
  refine ⟨rfl, rfl, rfl, rfl, fun st fr h => ?_, fun e h => ?_,
    fun st fr h => ?_, fun e h => ?_⟩ <;>
    simp [mcfFit, nzvFit, h, Except.map]

/-- Claim C9 witness: a concrete multicollinearity run whose `use` value
is invalid fails identically through `fit` and through `fit_transform`. -/
theorem c9_witness :
    (mcfFit corFnW mcfCfgBadUse frameABY).2 =
      .error (.valueError "expected one of complete.obs all.obs everything") :=
  (c9_fit_agrees_with_fit_transform corFnW mcfCfgBadUse frameABY varFnW
    nzvCfgVariance frameABY).2.2.2.2.2.1
    (.valueError "expected one of complete.obs all.obs everything") (by rfl)

/-- Claim C10: `_val_features` raises a ValueError on `None` and on the
empty collection, so construction fails there; and every successfully
constructed pipeline holds a non-empty collection as `feature_names`
before `fit` is ever called. -/
theorem c10_construction_requires_nonempty_features :
    (∀ steps target, pipelineInit steps PyFeats.noneV target =
        .error (.valueError "invalid value for feature_names")) ∧
    (∀ steps target, pipelineInit steps (.listV []) target =
        .error (.valueError "invalid value for feature_names")) ∧
    (∀ x r, valFeatures x = .ok r → ∃ l, r = PyFeats.listV l ∧ l ≠ []) ∧
    (∀ steps x target p, pipelineInit steps x target = .ok p →
      ∃ l, p.featureNames = PyFeats.listV l ∧ l ≠ []) := by
  refine ⟨fun _ _ => rfl, fun _ _ => rfl, fun x r h => valFeatures_ok_listV x r h,
    fun steps x target p h => ?_⟩
  unfold pipelineInit at h
  cases hv : valFeatures x with
  | error e => rw [hv] at h; simp at h
  | ok fn =>
    rw [hv] at h
    simp only at h
    split at h
    · simp at h
    · split at h
      · simp at h
      · split at h
        · simp at h
        · split at h
          · simp at h
          · split at h
            · simp at h
            · rcases Except.ok.inj h with rfl
              exact valFeatures_ok_listV x fn hv

/-- Claim C10 witness: a singleton feature list passes `_val_features` and
is indeed a non-empty collection. -/
theorem c10_witness :
    ∃ l, PyFeats.listV [PyVal.str "a"] = PyFeats.listV l ∧ l ≠ [] :=
  c10_construction_requires_nonempty_features.2.2.1
    (PyFeats.listV [PyVal.str "a"]) (PyFeats.listV [PyVal.str "a"]) rfl

/-- Claim C2 counterexample: with an out-of-domain sparse threshold the
fit still resolves the candidate frame before raising the configuration
error (the trace shows the access preceding the error), and with an
invalid NZV strategy the fit resolves the candidate frame and counts NAs
before raising — refuting "before any access to the input frame". -/
theorem c2_counterexample_access_before_error :
    sparseFit sparseCfgBad frameNA =
      ([FEvent.resolveFrame],
       .error (.valueError "thresh must be a float between 0 inclusive and 1")) ∧
    nzvFitTransform varFnW nzvCfgBadStrategy frameNA =
      ([FEvent.resolveFrame, FEvent.naCheck],
       .error (.valueError "strategy must be one of variance ratio")) := by
  constructor
  · simp only [sparseFit, sparseCfgBad]
    rw [if_neg (by norm_num)]
  · rfl

/-- Claim C2 (amended): a malformed configuration (out-of-domain sparse
threshold, invalid NZV strategy, ratio threshold not above 1) always makes
`fit` raise the configuration error before any statistic computation, but
only after candidate-frame resolution — and, for the NZV filterer,
possibly after NA counting — because the source resolves the candidate
frame (and validates the `use` policy) before validating the threshold or
strategy. -/
theorem c2_amended_config_error_before_stats :
    (∀ cfg X, ¬(0 ≤ cfg.threshold ∧ cfg.threshold < 1) →
      (sparseFit cfg X).2 =
        .error (.valueError "thresh must be a float between 0 inclusive and 1") ∧
      FEvent.statCompute ∉ (sparseFit cfg X).1) ∧
    (∀ varFn cfg X, validUses.contains cfg.use = true →
      cfg.strategy ≠ "variance" → cfg.strategy ≠ "ratio" →
      (nzvFitTransform varFn cfg X).2 =
        .error (.valueError "strategy must be one of variance ratio") ∧
      FEvent.statCompute ∉ (nzvFitTransform varFn cfg X).1) ∧
    (∀ varFn cfg X, validUses.contains cfg.use = true →
      cfg.strategy = "ratio" → cfg.threshold ≤ 1 →
      (nzvFitTransform varFn cfg X).2 =
        .error (.valueError "when strategy is ratio threshold must be greater than 1.0") ∧
      FEvent.statCompute ∉ (nzvFitTransform varFn cfg X).1) := by
  refine ⟨fun cfg X h => ?_, fun varFn cfg X hu hs1 hs2 => ?_, fun varFn cfg X hu hs ht => ?_⟩
  · simp only [sparseFit]
    rw [if_neg h]
    exact ⟨rfl, by simp⟩
  · obtain ⟨ev, ⟨use2, w⟩, hvu⟩ :=
      validateUseT_ok_of_valid
        (frameFromXY X cfg.featureNames cfg.targetFeature cfg.excludeFeatures)
        cfg.use cfg.naWarn hu
    have hno : FEvent.statCompute ∉ ev := by
      have h0 := validateUseT_no_stat
        (frameFromXY X cfg.featureNames cfg.targetFeature cfg.excludeFeatures)
        cfg.use cfg.naWarn
      rw [hvu] at h0
      exact h0
    simp only [nzvFitTransform, hvu]
    rw [if_pos ⟨hs1, hs2⟩]
    exact ⟨rfl, by simp [List.mem_cons, hno]⟩
  · obtain ⟨ev, ⟨use2, w⟩, hvu⟩ :=
      validateUseT_ok_of_valid
        (frameFromXY X cfg.featureNames cfg.targetFeature cfg.excludeFeatures)
        cfg.use cfg.naWarn hu
    have hno : FEvent.statCompute ∉ ev := by
      have h0 := validateUseT_no_stat
        (frameFromXY X cfg.featureNames cfg.targetFeature cfg.excludeFeatures)
        cfg.use cfg.naWarn
      rw [hvu] at h0
      exact h0
    simp only [nzvFitTransform, hvu]
    rw [if_neg (by simp [hs]), if_neg (by simp [hs]), if_pos (not_lt.mpr ht)]
    exact ⟨rfl, by simp [List.mem_cons, hno]⟩

/-- Claim C2 (amended) witness: a ratio-strategy configuration with
threshold one half fails with the configuration error and its trace shows
no statistic computation. -/
theorem c2_amended_witness :
    (nzvFitTransform varFnW nzvCfgRatioBad frameABY).2 =
      .error (.valueError "when strategy is ratio threshold must be greater than 1.0") ∧
    FEvent.statCompute ∉ (nzvFitTransform varFnW nzvCfgRatioBad frameABY).1 :=
  c2_amended_config_error_before_stats.2.2 varFnW nzvCfgRatioBad frameABY
    rfl rfl (by norm_num [nzvCfgRatioBad])

/-- Claim C5: for a threshold in `[0, 1)` the sparse dropper fit succeeds,
drops exactly the candidate columns whose missing fraction strictly
exceeds the threshold (a column whose fraction equals the threshold is
retained), and records the fractions of all candidate columns in frame
column order. -/
theorem c5_sparse_strict_threshold (cfg : SparseCfg) (X : Frame)
    (h0 : 0 ≤ cfg.threshold) (h1 : cfg.threshold < 1)
    (hr : 0 < (sparseCandidates cfg X).nrows)
    (hd : (sparseCandidates cfg X).names.Nodup) :
    ∃ st : SparseFitted,
      (sparseFit cfg X).2 = .ok st ∧
      st.drop = ((sparseCandidates cfg X).cols.filter
          (fun c => cfg.threshold < colSparsity (sparseCandidates cfg X).nrows c.2)).map Prod.fst ∧
      st.sparsity = (sparseCandidates cfg X).cols.map
          (fun c => colSparsity (sparseCandidates cfg X).nrows c.2) ∧
      (∀ nm c, (nm, c) ∈ (sparseCandidates cfg X).cols →
        colSparsity (sparseCandidates cfg X).nrows c = cfg.threshold → nm ∉ st.drop) := by
  have hfit : (sparseFit cfg X).2 = .ok
      ⟨(((sparseCandidates cfg X).cols.map
          (fun c => (c.1, colSparsity (sparseCandidates cfg X).nrows c.2))).filter
            (fun p => cfg.threshold < p.2)).map Prod.fst,
        ((sparseCandidates cfg X).cols.map
          (fun c => (c.1, colSparsity (sparseCandidates cfg X).nrows c.2))).map Prod.snd⟩ := by
    simp only [sparseFit, sparseCandidates]
    rw [if_pos ⟨h0, h1⟩]
  refine ⟨_, hfit, ?_, ?_, ?_⟩
  · exact filter_map_fst_comm _ cfg.threshold (sparseCandidates cfg X).cols
  · simp [List.map_map, Function.comp]
  · intro nm c hmem heq hdrop
    rw [filter_map_fst_comm _ cfg.threshold (sparseCandidates cfg X).cols] at hdrop
    rcases List.mem_map.mp hdrop with ⟨c', hc', hfst⟩
    rcases List.mem_filter.mp hc' with ⟨hcmem, hlt⟩
    have hceq : c'.2 = c := by
      have : (nm, c'.2) ∈ (sparseCandidates cfg X).cols := by
        rw [← hfst]
        exact hcmem
      exact nodup_fst_eq (sparseCandidates cfg X).cols hd nm c'.2 c this hmem
    rw [hceq] at hlt
    simp only [decide_eq_true_eq] at hlt
    rw [heq] at hlt
    exact lt_irrefl _ hlt

/-- Claim C5 witness: at threshold one half on a frame whose candidate
columns have fractions one half and one, the fitted state exists with the
stated drop list, sparsity array and boundary behavior. -/
theorem c5_witness :
    ∃ st : SparseFitted,
      (sparseFit sparseCfgHalf frameNA).2 = .ok st ∧
      st.drop = ((sparseCandidates sparseCfgHalf frameNA).cols.filter
          (fun c => sparseCfgHalf.threshold <
            colSparsity (sparseCandidates sparseCfgHalf frameNA).nrows c.2)).map Prod.fst ∧
      st.sparsity = (sparseCandidates sparseCfgHalf frameNA).cols.map
          (fun c => colSparsity (sparseCandidates sparseCfgHalf frameNA).nrows c.2) ∧
      (∀ nm c, (nm, c) ∈ (sparseCandidates sparseCfgHalf frameNA).cols →
        colSparsity (sparseCandidates sparseCfgHalf frameNA).nrows c = sparseCfgHalf.threshold →
        nm ∉ st.drop) :=
  c5_sparse_strict_threshold sparseCfgHalf frameNA
    (by norm_num [sparseCfgHalf]) (by norm_num [sparseCfgHalf])
    (by decide) (by decide)

/-- Claim C7: with the ratio strategy any threshold not above 1 is
rejected with a configuration error; with the variance strategy any
threshold is accepted and the fit drops exactly the candidate columns
whose variance is strictly below the threshold, `var_` mapping each
dropped column to its variance (columns at or above the threshold are
never dropped). -/
theorem c7_nzv_strategy_thresholds (varFn : Bool → String → Frame → List ℚ)
    (cfg : NzvCfg) (X : Frame) :
    (cfg.strategy = "ratio" → cfg.threshold ≤ 1 → validUses.contains cfg.use = true →
      (nzvFitTransform varFn cfg X).2 =
        .error (.valueError "when strategy is ratio threshold must be greater than 1.0")) ∧
    (∀ ev use2 w, cfg.strategy = "variance" →
      validateUseT (nzvCandidates cfg X) cfg.use cfg.naWarn = (ev, .ok (use2, w)) →
      ∃ st Y, (nzvFitTransform varFn cfg X).2 = .ok (st, Y) ∧
        st.drop = (((nzvCandidates cfg X).names.zip
            (varFn cfg.naRm use2 (nzvCandidates cfg X))).filter
              (fun p => p.2 < cfg.threshold)).map Prod.fst ∧
        st.var = ((nzvCandidates cfg X).names.zip
            (varFn cfg.naRm use2 (nzvCandidates cfg X))).filter
              (fun p => p.2 < cfg.threshold) ∧
        Y = selTransform st.drop X ∧
        ((nzvCandidates cfg X).names.Nodup →
          ∀ nm v, (nm, v) ∈ (nzvCandidates cfg X).names.zip
              (varFn cfg.naRm use2 (nzvCandidates cfg X)) →
            ¬ v < cfg.threshold → nm ∉ st.drop)) := by
  constructor
  · intro hs ht hu
    obtain ⟨ev, ⟨use2, w⟩, hvu⟩ :=
      validateUseT_ok_of_valid
        (frameFromXY X cfg.featureNames cfg.targetFeature cfg.excludeFeatures)
        cfg.use cfg.naWarn hu
    simp only [nzvFitTransform, hvu]
    rw [if_neg (by simp [hs]), if_neg (by simp [hs]), if_pos (not_lt.mpr ht)]
  · intro ev use2 w hs hvu
    simp only [nzvCandidates] at hvu
    simp only [nzvFitTransform, nzvCandidates, hvu]
    rw [if_neg (by simp [hs]), if_pos hs]
    refine ⟨_, _, rfl, rfl, rfl, rfl, fun hnd nm v hmem hnlt hdrop => ?_⟩
    rcases List.mem_map.mp hdrop with ⟨p', hp', hfst⟩
    rcases List.mem_filter.mp hp' with ⟨hpmem, hlt⟩
    have hnodup : (((frameFromXY X cfg.featureNames cfg.targetFeature cfg.excludeFeatures).names.zip
        (varFn cfg.naRm use2 (frameFromXY X cfg.featureNames cfg.targetFeature cfg.excludeFeatures))).map
          Prod.fst).Nodup := by
      exact List.Nodup.sublist (map_fst_zip_sublist _ _) hnd
    have hpeq : p'.2 = v := by
      have h1 : (nm, p'.2) ∈ (frameFromXY X cfg.featureNames cfg.targetFeature cfg.excludeFeatures).names.zip
          (varFn cfg.naRm use2 (frameFromXY X cfg.featureNames cfg.targetFeature cfg.excludeFeatures)) := by
        rw [← hfst]
        exact hpmem
      exact nodup_fst_eq _ hnodup nm p'.2 v h1 hmem
    rw [hpeq] at hlt
    simp only [decide_eq_true_eq] at hlt
    exact hnlt hlt

/-- Claim C7 witness: a concrete variance-strategy run (variances 0 and 1
against threshold one half over candidates `a`, `b`) has the stated drop
and `var_` characterization. -/
theorem c7_witness :
    ∃ st Y, (nzvFitTransform varFnW nzvCfgVariance frameABY).2 = .ok (st, Y) ∧
      st.drop = (((nzvCandidates nzvCfgVariance frameABY).names.zip
          (varFnW nzvCfgVariance.naRm "complete.obs" (nzvCandidates nzvCfgVariance frameABY))).filter
            (fun p => p.2 < nzvCfgVariance.threshold)).map Prod.fst ∧
      st.var = ((nzvCandidates nzvCfgVariance frameABY).names.zip
          (varFnW nzvCfgVariance.naRm "complete.obs" (nzvCandidates nzvCfgVariance frameABY))).filter
            (fun p => p.2 < nzvCfgVariance.threshold) ∧
      Y = selTransform st.drop frameABY ∧
      ((nzvCandidates nzvCfgVariance frameABY).names.Nodup →
        ∀ nm v, (nm, v) ∈ (nzvCandidates nzvCfgVariance frameABY).names.zip
            (varFnW nzvCfgVariance.naRm "complete.obs" (nzvCandidates nzvCfgVariance frameABY)) →
          ¬ v < nzvCfgVariance.threshold → nm ∉ st.drop) :=
  (c7_nzv_strategy_thresholds varFnW nzvCfgVariance frameABY).2
    [] "complete.obs" false rfl rfl

/-- Looking a name up among buckets inspects the head first. -/
theorem bucketOf_cons (b : String × List (String × String))
    (bs : List (String × List (String × String))) (n : String) :
    bucketOf (b :: bs) n = if b.1 == n then b.2 else bucketOf bs n := by
  by_cases h : (b.1 == n) = true <;> simp [bucketOf, List.find?, h]

/-- Initially every bucket is empty. -/
theorem bucketOf_emptyBuckets (names : List String) (n : String) :
    bucketOf (emptyBuckets names) n = [] := by
  induction names with
  | nil => rfl
  | cons a rest ih =>
    rw [show emptyBuckets (a :: rest) = (a, []) :: emptyBuckets rest from rfl,
      bucketOf_cons]
    split
    · rfl
    · exact ih

/-- Inserting a routed parameter appends it to exactly the addressed
bucket. -/
theorem bucketInsert_bucketOf :
    ∀ (bs : List (String × List (String × String))) (step param v : String) bs2,
      bucketInsert bs step param v = some bs2 →
      ∀ n, bucketOf bs2 n =
        bucketOf bs n ++ (if step == n then [(param, v)] else []) := by
  intro bs
  induction bs with
  | nil => intro step param v bs2 h; simp [bucketInsert] at h
  | cons b rest ih =>
    intro step param v bs2 h n
    unfold bucketInsert at h
    by_cases hb : (b.1 == step) = true
    · rw [if_pos hb] at h
      have hbs2 : bs2 = (b.1, b.2 ++ [(param, v)]) :: rest := (Option.some.inj h).symm
      subst hbs2
      rw [bucketOf_cons, bucketOf_cons]
      have h1 : b.1 = step := by simpa using hb
      by_cases hn : (b.1 == n) = true
      · have h2 : b.1 = n := by simpa using hn
        have hsn : (step == n) = true := by simp [← h1, ← h2]
        simp [hn, hsn]
      · have hsn : (step == n) = false := by
          rw [← h1]
          simpa using hn
        simp [hn, hsn]
    · rw [if_neg hb] at h
      cases hrec : bucketInsert rest step param v with
      | none => rw [hrec] at h; simp at h
      | some r2 =>
        rw [hrec] at h
        have hbs2 : bs2 = b :: r2 := by
          simpa using (Option.some.inj (by simpa using h)).symm
        subst hbs2
        rw [bucketOf_cons, bucketOf_cons]
        by_cases hn : (b.1 == n) = true
        · have h2 : b.1 = n := by simpa using hn
          have hsn : (step == n) = false := by
            by_contra hx
            have h3 : step = n := by simpa using hx
            exact hb (by simp [h2, h3])
          simp [hn, hsn]
        · simp [hn, ih step param v r2 hrec n]

/-- Folding the supplied parameters over the buckets routes each one to
the bucket its name addresses, in supply order. -/
theorem buildBucketsAux_bucketOf :
    ∀ (ps : List (String × String)) (bs bs2 : List (String × List (String × String))),
      buildBucketsAux bs ps = .ok bs2 →
      ∀ n, bucketOf bs2 n = bucketOf bs n ++ routedParams ps n := by
  intro ps
  induction ps with
  | nil =>
    intro bs bs2 h n
    have hb : bs2 = bs := (Except.ok.inj h).symm
    subst hb
    simp [routedParams]
  | cons pv rest ih =>
    intro bs bs2 h n
    unfold buildBucketsAux at h
    cases hsp : splitParamName pv.1 with
    | none => simp [hsp] at h
    | some sp =>
      simp only [hsp] at h
      cases hin : bucketInsert bs sp.1 sp.2 pv.2 with
      | none => simp [hin] at h
      | some bs1 =>
        simp only [hin] at h
        rw [ih bs1 bs2 h n, bucketInsert_bucketOf bs sp.1 sp.2 pv.2 bs1 hin n]
        have hroute : routedParams (pv :: rest) n =
            (if sp.1 == n then [(sp.2, pv.2)] else []) ++ routedParams rest n := by
          unfold routedParams
          rw [List.filterMap_cons]
          simp only [hsp]
          by_cases hx : (sp.1 == n) = true <;> simp [hx]
        rw [hroute, List.append_assoc]

/-- A parameter name without the separator always fails the split. -/
theorem buildBucketsAux_error :
    ∀ (ps : List (String × String)) (bs : List (String × List (String × String)))
      (pv : String × String), pv ∈ ps → splitParamName pv.1 = none →
      ∃ e, buildBucketsAux bs ps = .error e := by
  intro ps
  induction ps with
  | nil => intro bs pv h; cases h
  | cons q rest ih =>
    intro bs pv hmem hsp
    rcases List.mem_cons.mp hmem with rfl | hmem2
    · refine ⟨.valueError "not enough values to unpack", ?_⟩
      unfold buildBucketsAux
      simp only [hsp]
    · unfold buildBucketsAux
      cases hq : splitParamName q.1 with
      | none => exact ⟨.valueError "not enough values to unpack", by simp only [hq]⟩
      | some sp =>
        cases hin : bucketInsert bs sp.1 sp.2 q.2 with
        | none => exact ⟨.keyError, by simp only [hq, hin]⟩
        | some bs1 =>
          obtain ⟨e, he⟩ := ih bs1 pv hmem2 hsp
          exact ⟨e, by simp only [hq, hin]; exact he⟩

/-- A successful transformer loop invoked every non-final step, in order,
with exactly that step's bucket. -/
theorem runSteps_log :
    ∀ (l : List (String × StepObj)) (target : Option String)
      (bs : List (String × List (String × String))) (fr f : Frame)
      (log : List (String × List (String × String))),
      runSteps target bs l fr = .ok (f, log) →
      log = l.map (fun s => (s.1, bucketOf bs s.1)) := by
  intro l
  induction l with
  | nil =>
    intro target bs fr f log h
    have h2 : ((fr, []) : Frame × List (String × List (String × String))) = (f, log) :=
      Except.ok.inj h
    simpa using (congrArg Prod.snd h2).symm
  | cons st rest ih =>
    intro target bs fr f log h
    rcases st with ⟨nm, ob⟩
    cases ob with
    | selector s =>
      simp only [runSteps] at h
      cases hft : s.fitTransform target (bucketOf bs nm) fr with
      | error e => simp [hft] at h
      | ok fr2 =>
        simp only [hft] at h
        cases hrs : runSteps target bs rest fr2 with
        | error e => simp [hrs] at h
        | ok pr =>
          rcases pr with ⟨f0, log0⟩
          simp only [hrs, Except.ok.injEq, Prod.mk.injEq] at h
          obtain ⟨h1, h2⟩ := h
          rw [← h2]
          simp [ih target bs fr2 f0 log0 hrs]
    | estimator hp => simp only [runSteps] at h; simp at h
    | plain => simp only [runSteps] at h; simp at h

/-- Claim C3: the routing phase that `fit` invokes splits every supplied
fit-time parameter into per-step buckets at the first `__` separator (a
name without it, or with an unknown step prefix, is an error); every
non-final step is invoked with exactly its own bucket; and the final
step's bucket is returned and handed to the estimator's `train` call.
(`fit` itself channels an empty parameter set into this phase: its public
signature accepts no fit parameters.) -/
theorem c3_fit_param_routing :
    (∀ names ps bs n, buildBuckets names ps = .ok bs →
      bucketOf bs n = routedParams ps n) ∧
    (∀ names ps (pv : String × String), pv ∈ ps → splitParamName pv.1 = none →
      ∃ e, buildBuckets names ps = .error e) ∧
    (∀ steps target ps frame fr lastB log bs,
      buildBuckets (steps.map Prod.fst) ps = .ok bs →
      preTransform steps target ps frame = .ok (fr, lastB, log) →
      log = steps.dropLast.map (fun s => (s.1, bucketOf bs s.1)) ∧
      lastB = bucketOf bs (lastStepName steps)) ∧
    (∀ p X o, pipelineFit p X = .ok o →
      ∃ fr log,
        preTransform p.steps p.targetFeature [] (fitRestrict p X) =
          .ok (fr, o.trainParams, log) ∧
        o.trainFrame = fr) := by
  refine ⟨fun names ps bs n h => ?_, fun names ps pv hmem hsp => ?_,
    fun steps target ps frame fr lastB log bs h1 h2 => ?_, fun p X o h => ?_⟩
  · unfold buildBuckets at h
    rw [buildBucketsAux_bucketOf ps (emptyBuckets names) bs h n,
      bucketOf_emptyBuckets]
    simp
  · exact buildBucketsAux_error ps (emptyBuckets names) pv hmem hsp
  · unfold preTransform at h2
    simp only [h1] at h2
    cases hrs : runSteps target bs steps.dropLast frame with
    | error e => simp [hrs] at h2
    | ok pr =>
      rcases pr with ⟨fr0, log0⟩
      simp only [hrs, Except.ok.injEq, Prod.mk.injEq] at h2
      obtain ⟨hfr, hlast, hlog⟩ := h2
      refine ⟨?_, hlast.symm⟩
      rw [← hlog]
      exact runSteps_log steps.dropLast target bs frame fr0 log0 hrs
  · unfold pipelineFit at h
    cases hty : p.targetFeature with
    | none => simp [hty] at h
    | some y =>
      simp only [hty] at h
      cases hfn : p.featureNames with
      | noneV => simp [hfn] at h
      | scalarV v => simp [hfn] at h
      | listV l =>
        simp only [hfn] at h
        cases hel : checkFeatureElems l with
        | error e => simp [hel] at h
        | ok u =>
          simp only [hel] at h
          cases hpt : preTransform p.steps (some y) [] (fitRestrict p X) with
          | error e => simp [hpt] at h
          | ok tr =>
            rcases tr with ⟨xt, lastB, log⟩
            simp only [hpt] at h
            split at h
            · simp at h
            · split at h
              · rcases Except.ok.inj h with rfl
                exact ⟨xt, log, rfl, rfl⟩
              · simp at h

/-- Claim C3 witness: the concrete parameter list splits into the stated
buckets and the `s1` bucket is exactly the parameters routed to `s1`. -/
theorem c3_witness :
    bucketOf bucketsW "s1" = routedParams paramsW "s1" :=
  c3_fit_param_routing.1 ["s1", "s2"] paramsW bucketsW "s1" (by rfl)

end Skutil
